import Mathlib

/-!
# A verified model of the `ai-news-digest` digest pipeline

This file is a shallow embedding, in Lean 4, of the digest-generation
pipeline of `src/digester/summariser.py`:

* item selection (`sorted(..., key=published_at, reverse=True)[:MAX_PER_DIGEST]`),
* content enrichment (`_extract_text`, with the direct-fetch / jina.ai
  fallback chain) including the network events it emits,
* prompt construction (`_build_prompt`, with the SHA-256-derived StoryId),
* the OpenRouter call and its pre-flight API-key check,
* response parsing (`json.loads`) and schema validation
  (`jsonschema.validate` against `DIGEST_SCHEMA`).

Python strings are sequences of Unicode code points, so string-level
operations (slicing `s[:n]`, `len`, `strip`, lexicographic `<`) are
modelled on `List Char` / `String.data`, which has the same semantics.
External effects (HTTP fetches via `requests`, the readability library,
`textwrap.shorten`, the LLM endpoint) are modelled as components of an
explicit `Config` record: the pipeline is a pure function of that record,
and emits an explicit trace of network events so that ordering properties
("no HTTP call before the error") are statable.
-/

namespace Digest

/- ------------------------------------------------------------------ -/
/- Python string primitives, modelled on code points                   -/
/- ------------------------------------------------------------------ -/

/-- Python `s[:n]` — the first `n` code points of `s`. -/
def pyTake (s : String) (n : Nat) : String :=
  String.mk (s.data.take n)

/-- ASCII whitespace as recognised by Python `str.strip()` (we do not
model the additional Unicode space code points, which no claim
exercises). -/
def pyIsSpace (c : Char) : Bool :=
  c = ' ' || c = '\t' || c = '\n' || c = '\r' || c = '\x0b' || c = '\x0c'

/-- Drop leading whitespace code points. -/
def dropSpace : List Char → List Char
  | [] => []
  | c :: cs => if pyIsSpace c then dropSpace cs else c :: cs

/-- Python `s.strip()`: drop whitespace at both ends. -/
def pyStrip (s : String) : String :=
  String.mk (dropSpace (dropSpace s.data.reverse).reverse)

/-- Code-point-wise lexicographic strict order, Python's `<` on `str`. -/
def lexLt : List Char → List Char → Bool
  | [], [] => false
  | [], _ :: _ => true
  | _ :: _, [] => false
  | a :: as, b :: bs =>
    if a.toNat < b.toNat then true
    else if b.toNat < a.toNat then false
    else lexLt as bs

/-- Python `a < b` on strings. -/
def pyStrLt (a b : String) : Bool := lexLt a.data b.data

/- ------------------------------------------------------------------ -/
/- The input records                                                   -/
/- ------------------------------------------------------------------ -/

/-- A collector record as consumed by `create_digest`: a Python dict with
keys `title`, `url`, `published_at`, `source`, optionally `description`,
and — only once the pipeline has mutated it — `content`.  An `Option`
field value `none` models the absence of the key. -/
structure Item where
  title : String
  url : String
  published_at : String
  source : String
  description : Option String := none
  content : Option String := none
deriving DecidableEq, Repr

/- ------------------------------------------------------------------ -/
/- Module-level configuration constants                                -/
/- ------------------------------------------------------------------ -/

/-- Python `int(s)` on a string: optional sign after stripped whitespace,
then decimal digits (we do not model `_` digit grouping); `none` models
the `ValueError`. -/
def pyInt (s : String) : Option Int :=
  let cs := (pyStrip s).data
  let core : List Char → Option Nat := fun ds =>
    if ds = [] then none
    else if ds.all (fun c => c.toNat ≥ 48 && c.toNat ≤ 57) then
      some (ds.foldl (fun acc c => acc * 10 + (c.toNat - 48)) 0)
    else none
  match cs with
  | '-' :: rest => (core rest).map (fun n => -(n : Int))
  | '+' :: rest => (core rest).map (fun n => (n : Int))
  | _ => (core cs).map (fun n => (n : Int))

/-- `MAX_PER_DIGEST = int(os.getenv("MAX_STORIES", 8))`
(summariser.py line 18).  `env` is the process environment. -/
def MAX_PER_DIGEST (env : String → Option String) : Option Int :=
  match env "MAX_STORIES" with
  | none => some 8
  | some s => pyInt s

/-- `CHAR_LIMIT = int(os.getenv("ARTICLE_CHAR_LIMIT", 5000))`
(summariser.py line 19). -/
def CHAR_LIMIT (env : String → Option String) : Option Int :=
  match env "ARTICLE_CHAR_LIMIT" with
  | none => some 5000
  | some s => pyInt s

/-- `JINA_ENDPOINT = "https://r.jina.ai/"`. -/
def JINA_ENDPOINT : String := "https://r.jina.ai/"

/- ------------------------------------------------------------------ -/
/- UTF-8 and SHA-256, for the StoryId                                  -/
/- ------------------------------------------------------------------ -/

/-- UTF-8 encoding of one Unicode scalar value (RFC 3629); models what
Python `str.encode('utf-8')` does per code point. -/
def utf8Char (c : Char) : List Nat :=
  let n := c.toNat
  if n < 128 then [n]
  else if n < 2048 then [192 + n / 64, 128 + n % 64]
  else if n < 65536 then [224 + n / 4096, 128 + n / 64 % 64, 128 + n % 64]
  else [240 + n / 262144, 128 + n / 4096 % 64, 128 + n / 64 % 64, 128 + n % 64]

/-- `url.encode('utf-8')` as a list of byte values. -/
def utf8Encode (s : String) : List Nat :=
  s.data.flatMap utf8Char

/-- Truncation to a 32-bit word. -/
def w32 (n : Nat) : Nat := n % 4294967296

/-- Right rotation of a 32-bit word by `n` bits. -/
def rotr (n x : Nat) : Nat := w32 ((x >>> n) ||| (x <<< (32 - n)))

/-- SHA-256 `Ch(x,y,z) = (x ∧ y) ⊕ (¬x ∧ z)` on 32-bit words. -/
def shaCh (x y z : Nat) : Nat := (x &&& y) ^^^ ((x ^^^ 4294967295) &&& z)

/-- SHA-256 `Maj(x,y,z)`. -/
def shaMaj (x y z : Nat) : Nat := (x &&& y) ^^^ (x &&& z) ^^^ (y &&& z)

/-- SHA-256 `Σ₀`. -/
def bigSigma0 (x : Nat) : Nat := rotr 2 x ^^^ rotr 13 x ^^^ rotr 22 x

/-- SHA-256 `Σ₁`. -/
def bigSigma1 (x : Nat) : Nat := rotr 6 x ^^^ rotr 11 x ^^^ rotr 25 x

/-- SHA-256 `σ₀`. -/
def smallSigma0 (x : Nat) : Nat := rotr 7 x ^^^ rotr 18 x ^^^ (x >>> 3)

/-- SHA-256 `σ₁`. -/
def smallSigma1 (x : Nat) : Nat := rotr 17 x ^^^ rotr 19 x ^^^ (x >>> 10)

/-- The 64 SHA-256 round constants (FIPS 180-4, written in decimal). -/
def shaK : List Nat :=
  [1116352408, 1899447441, 3049323471, 3921009573, 961987163, 1508970993,
   2453635748, 2870763221, 3624381080, 310598401, 607225278, 1426881987,
   1925078388, 2162078206, 2614888103, 3248222580, 3835390401, 4022224774,
   264347078, 604807628, 770255983, 1249150122, 1555081692, 1996064986,
   2554220882, 2821834349, 2952996808, 3210313671, 3336571891, 3584528711,
   113926993, 338241895, 666307205, 773529912, 1294757372, 1396182291,
   1695183700, 1986661051, 2177026350, 2456956037, 2730485921, 2820302411,
   3259730800, 3345764771, 3516065817, 3600352804, 4094571909, 275423344,
   430227734, 506948616, 659060556, 883997877, 958139571, 1322822218,
   1537002063, 1747873779, 1955562222, 2024104815, 2227730452, 2361852424,
   2428436474, 2756734187, 3204031479, 3329325298]

/-- The eight-word SHA-256 working state / hash value. -/
structure Hash8 where
  a : Nat
  b : Nat
  c : Nat
  d : Nat
  e : Nat
  f : Nat
  g : Nat
  h : Nat

/-- Initial SHA-256 hash value (FIPS 180-4, written in decimal). -/
def shaH0 : Hash8 :=
  ⟨1779033703, 3144134277, 1013904242, 2773480762,
   1359893119, 2600822924, 528734635, 1541459225⟩

/-- SHA-256 padding: append `0x80`, zero bytes to 56 mod 64, then the
bit length as an 8-byte big-endian integer. -/
def shaPad (msg : List Nat) : List Nat :=
  let L := msg.length
  let zeros := List.replicate ((120 - (L + 1) % 64) % 64) 0
  let bits := 8 * L
  msg ++ [128] ++ zeros ++
    [bits / 72057594037927936 % 256, bits / 281474976710656 % 256,
     bits / 1099511627776 % 256, bits / 4294967296 % 256,
     bits / 16777216 % 256, bits / 65536 % 256, bits / 256 % 256, bits % 256]

/-- Group bytes into big-endian 32-bit words (the padded input length is
a multiple of 4, so the catch-all is never hit there). -/
def bytesToWords : List Nat → List Nat
  | b0 :: b1 :: b2 :: b3 :: rest =>
    (b0 * 16777216 + b1 * 65536 + b2 * 256 + b3) :: bytesToWords rest
  | _ => []

/-- Group words into 16-word blocks (padded input is a multiple of 16). -/
def wordsToBlocks : List Nat → List (List Nat)
  | w0 :: w1 :: w2 :: w3 :: w4 :: w5 :: w6 :: w7 ::
    w8 :: w9 :: w10 :: w11 :: w12 :: w13 :: w14 :: w15 :: rest =>
    [w0, w1, w2, w3, w4, w5, w6, w7, w8, w9, w10, w11, w12, w13, w14, w15]
      :: wordsToBlocks rest
  | _ => []

/-- Extend the message schedule `n` more steps; the accumulator holds the
schedule so far, most recent word first. -/
def extendRev : Nat → List Nat → List Nat
  | 0, ws => ws
  | n + 1, ws =>
    extendRev n
      (w32 (smallSigma1 (ws.getD 1 0) + ws.getD 6 0 +
            smallSigma0 (ws.getD 14 0) + ws.getD 15 0) :: ws)

/-- The 64-word message schedule of one block. -/
def schedule (block : List Nat) : List Nat :=
  (extendRev 48 block.reverse).reverse

/-- One SHA-256 round; `kw` is the pair of round constant and schedule
word. -/
def roundStep (st : Hash8) (kw : Nat × Nat) : Hash8 :=
  let t1 := w32 (st.h + bigSigma1 st.e + shaCh st.e st.f st.g + kw.1 + kw.2)
  let t2 := w32 (bigSigma0 st.a + shaMaj st.a st.b st.c)
  ⟨w32 (t1 + t2), st.a, st.b, st.c, w32 (st.d + t1), st.e, st.f, st.g⟩

/-- Compress one 16-word block into the running hash value. -/
def compress (st : Hash8) (block : List Nat) : Hash8 :=
  let fin := (shaK.zip (schedule block)).foldl roundStep st
  ⟨w32 (st.a + fin.a), w32 (st.b + fin.b), w32 (st.c + fin.c),
   w32 (st.d + fin.d), w32 (st.e + fin.e), w32 (st.f + fin.f),
   w32 (st.g + fin.g), w32 (st.h + fin.h)⟩

/-- SHA-256 of a byte sequence, as the final eight-word state. -/
def sha256Words (msg : List Nat) : Hash8 :=
  (wordsToBlocks (bytesToWords (shaPad msg))).foldl compress shaH0

/-- The four big-endian bytes of a 32-bit word. -/
def wordBytes (w : Nat) : List Nat :=
  [w / 16777216 % 256, w / 65536 % 256, w / 256 % 256, w % 256]

/-- The 32 digest bytes of SHA-256. -/
def sha256Bytes (msg : List Nat) : List Nat :=
  let st := sha256Words msg
  wordBytes st.a ++ wordBytes st.b ++ wordBytes st.c ++ wordBytes st.d ++
  wordBytes st.e ++ wordBytes st.f ++ wordBytes st.g ++ wordBytes st.h

/-- The two lowercase hex characters of a byte, as `hexdigest` writes
them. -/
def hexOfByte (b : Nat) : List Char :=
  [Nat.digitChar (b / 16), Nat.digitChar (b % 16)]

/-- The characters of `hashlib.sha256(msg).hexdigest()`. -/
def sha256HexChars (msg : List Nat) : List Char :=
  (sha256Bytes msg).flatMap hexOfByte

/-- `hashlib.sha256(msg).hexdigest()`. -/
def sha256Hex (msg : List Nat) : String :=
  String.mk (sha256HexChars msg)

/-- `hashlib.sha256(it['url'].encode('utf-8')).hexdigest()[:16]`
(summariser.py line 193): the StoryId emitted in the prompt. -/
def storyId (url : String) : String :=
  pyTake (sha256Hex (utf8Encode url)) 16

set_option maxRecDepth 100000 in
/-- Sanity: the model reproduces the NIST test vector for `"abc"`. -/
theorem sha256_abc_vector :
    sha256Hex (utf8Encode "abc") =
      "ba7816bf8f01cfea414140de5dae2223b00361a396177a9cb410ff61f20015ad" := by
  rfl

/- ------------------------------------------------------------------ -/
/- JSON values, `json.loads`, and `jsonschema.validate`                -/
/- ------------------------------------------------------------------ -/

/-- A parsed JSON value, as `json.loads` produces it.  Numbers keep
their source lexeme: the pipeline never computes with them, only
type-tests them.  Objects keep their members in source order; key lookup
is last-wins, matching Python dict construction. -/
inductive Json where
  | null : Json
  | bool (b : Bool) : Json
  | num (lexeme : String) : Json
  | str (s : String) : Json
  | arr (elems : List Json) : Json
  | obj (members : List (String × Json)) : Json

/-- Python-dict key lookup on an object's member list: the last binding
of a repeated key wins. -/
def jLookup (kvs : List (String × Json)) (k : String) : Option Json :=
  kvs.foldl (fun acc p => if p.1 = k then some p.2 else acc) none

/-- JSON whitespace accepted by `json.loads` between tokens. -/
def jsonSpace (c : Char) : Bool :=
  c = ' ' || c = '\t' || c = '\n' || c = '\r'

/-- Skip JSON whitespace. -/
def skipWs : List Char → List Char
  | [] => []
  | c :: cs => if jsonSpace c then skipWs cs else c :: cs

/-- Value of one hex digit. -/
def hexVal (c : Char) : Option Nat :=
  if c.toNat ≥ 48 && c.toNat ≤ 57 then some (c.toNat - 48)
  else if c.toNat ≥ 97 && c.toNat ≤ 102 then some (c.toNat - 87)
  else if c.toNat ≥ 65 && c.toNat ≤ 70 then some (c.toNat - 55)
  else none

/-- The single-character JSON string escapes. -/
def escChar (c : Char) : Option Char :=
  if c = '"' then some '"'
  else if c = '\\' then some '\\'
  else if c = '/' then some '/'
  else if c = 'b' then some '\x08'
  else if c = 'f' then some '\x0c'
  else if c = 'n' then some '\n'
  else if c = 'r' then some '\r'
  else if c = 't' then some '\t'
  else none

/-- Parse the rest of a JSON string literal (after the opening quote):
returns the decoded characters and the input after the closing quote.
`\uXXXX` escapes are decoded, including surrogate pairs; lone
surrogates (which Python would keep, but a Lean `Char` cannot hold) and
unescaped control characters are rejected. -/
def parseStrRest : List Char → Option (List Char × List Char)
  | [] => none
  | '"' :: cs => some ([], cs)
  | '\\' :: 'u' :: h1 :: h2 :: h3 :: h4 :: cs => do
    let n1 ← hexVal h1
    let n2 ← hexVal h2
    let n3 ← hexVal h3
    let n4 ← hexVal h4
    let n := n1 * 4096 + n2 * 256 + n3 * 16 + n4
    if n < 55296 || 57343 < n then
      (parseStrRest cs).map (fun p => (Char.ofNat n :: p.1, p.2))
    else if n < 56320 then
      match cs with
      | '\\' :: 'u' :: g1 :: g2 :: g3 :: g4 :: cs2 => do
        let m1 ← hexVal g1
        let m2 ← hexVal g2
        let m3 ← hexVal g3
        let m4 ← hexVal g4
        let m := m1 * 4096 + m2 * 256 + m3 * 16 + m4
        if 56320 ≤ m && m ≤ 57343 then
          (parseStrRest cs2).map (fun p =>
            (Char.ofNat (65536 + (n - 55296) * 1024 + (m - 56320)) :: p.1,
             p.2))
        else none
      | _ => none
    else none
  | '\\' :: e :: cs => do
    let c ← escChar e
    (parseStrRest cs).map (fun p => (c :: p.1, p.2))
  | c :: cs =>
    if c.toNat < 32 then none
    else (parseStrRest cs).map (fun p => (c :: p.1, p.2))

/-- Is `c` an ASCII digit? -/
def isDigit (c : Char) : Bool := c.toNat ≥ 48 && c.toNat ≤ 57

/-- Split off a maximal run of leading digits. -/
def spanDigits : List Char → List Char × List Char
  | [] => ([], [])
  | c :: cs =>
    if isDigit c then
      let p := spanDigits cs
      (c :: p.1, p.2)
    else ([], c :: cs)

/-- Lex a JSON number starting at the current position (after any
leading `-` has been checked by the caller to be followed by a digit):
`int frac? exp?` with the no-leading-zero rule.  Returns the lexeme and
the rest. -/
def lexNumBody (cs : List Char) : Option (List Char × List Char) := do
  let (intPart, rest) := spanDigits cs
  if intPart = [] then none
  else if intPart.length > 1 && intPart.headD '0' = '0' then none
  else
    let (fracPart, rest2) :=
      match rest with
      | '.' :: cs2 =>
        let p := spanDigits cs2
        if p.1 = [] then ([], rest) else ('.' :: p.1, p.2)
      | _ => ([], rest)
    if rest ≠ [] && rest.headD ' ' = '.' && fracPart = [] then none
    else
      match rest2 with
      | e :: cs3 =>
        if e = 'e' || e = 'E' then
          let (sgn, cs4) :=
            match cs3 with
            | '+' :: cs5 => (['+'], cs5)
            | '-' :: cs5 => (['-'], cs5)
            | _ => ([], cs3)
          let p := spanDigits cs4
          if p.1 = [] then none
          else some (intPart ++ fracPart ++ e :: sgn ++ p.1, p.2)
        else some (intPart ++ fracPart, rest2)
      | [] => some (intPart ++ fracPart, rest2)

/-- Lex a JSON number with optional leading minus. -/
def lexNum : List Char → Option (List Char × List Char)
  | '-' :: cs => (lexNumBody cs).map (fun p => ('-' :: p.1, p.2))
  | cs => lexNumBody cs

/-- Does the input start with the given keyword? Returns the rest. -/
def matchLit (kw : List Char) (cs : List Char) : Option (List Char) :=
  if cs.take kw.length = kw then some (cs.drop kw.length) else none

mutual

/-- Parse one JSON value at the current position.  `fuel` strictly
bounds the nesting work; `parseJson` supplies enough for any input.
Faithful to `json.loads` defaults, including the non-standard `NaN`,
`Infinity` and `-Infinity` constants it accepts. -/
def parseValue : Nat → List Char → Option (Json × List Char)
  | 0, _ => none
  | fuel + 1, cs =>
    match cs with
    | [] => none
    | '"' :: cs1 =>
      (parseStrRest cs1).map (fun p => (Json.str (String.mk p.1), p.2))
    | '\x7b' :: cs1 =>
      (match skipWs cs1 with
       | '\x7d' :: cs2 => some (Json.obj [], cs2)
       | cs2 => parseMembers fuel cs2 [])
    | '[' :: cs1 =>
      (match skipWs cs1 with
       | ']' :: cs2 => some (Json.arr [], cs2)
       | cs2 => parseElems fuel cs2 [])
    | 't' :: cs1 =>
      (matchLit ['r', 'u', 'e'] cs1).map (fun r => (Json.bool true, r))
    | 'f' :: cs1 =>
      (matchLit ['a', 'l', 's', 'e'] cs1).map (fun r => (Json.bool false, r))
    | 'n' :: cs1 =>
      (matchLit ['u', 'l', 'l'] cs1).map (fun r => (Json.null, r))
    | 'N' :: cs1 =>
      (matchLit ['a', 'N'] cs1).map (fun r => (Json.num "NaN", r))
    | 'I' :: cs1 =>
      (matchLit ['n', 'f', 'i', 'n', 'i', 't', 'y'] cs1).map
        (fun r => (Json.num "Infinity", r))
    | '-' :: 'I' :: cs1 =>
      (matchLit ['n', 'f', 'i', 'n', 'i', 't', 'y'] cs1).map
        (fun r => (Json.num "-Infinity", r))
    | cs =>
      (lexNum cs).map (fun p => (Json.num (String.mk p.1), p.2))

/-- Parse the members of an object, after at least one member is known
to follow. -/
def parseMembers : Nat → List Char → List (String × Json) →
    Option (Json × List Char)
  | 0, _, _ => none
  | fuel + 1, cs, acc =>
    match cs with
    | '"' :: cs1 => do
      let (k, cs2) ← parseStrRest cs1
      match skipWs cs2 with
      | ':' :: cs3 => do
        let (v, cs4) ← parseValue fuel (skipWs cs3)
        let acc2 := acc ++ [(String.mk k, v)]
        match skipWs cs4 with
        | ',' :: cs5 => parseMembers fuel (skipWs cs5) acc2
        | '\x7d' :: cs5 => some (Json.obj acc2, cs5)
        | _ => none
      | _ => none
    | _ => none

/-- Parse the elements of an array, after at least one element is known
to follow. -/
def parseElems : Nat → List Char → List Json → Option (Json × List Char)
  | 0, _, _ => none
  | fuel + 1, cs, acc => do
    let (v, cs1) ← parseValue fuel cs
    let acc2 := acc ++ [v]
    match skipWs cs1 with
    | ',' :: cs2 => parseElems fuel (skipWs cs2) acc2
    | ']' :: cs2 => some (Json.arr acc2, cs2)
    | _ => none

end

/-- `json.loads(s)`: parse one JSON document with nothing but
whitespace around it. -/
def parseJson (s : String) : Option Json := do
  let (v, rest) ← parseValue (s.data.length + 1) (skipWs s.data)
  if skipWs rest = [] then some v else none

/- ------------------------------------------------------------------ -/
/- `jsonschema.validate(instance, DIGEST_SCHEMA)`                      -/
/- ------------------------------------------------------------------ -/

/-- Is the value a JSON string? (`{"type": "string"}`). -/
def isStr : Json → Bool
  | .str _ => true
  | _ => false

/-- Required property of string type: the key must be present and bound
to a string (`required` + `properties/…: {"type":"string"}`). -/
def reqString (kvs : List (String × Json)) (k : String) : Bool :=
  match jLookup kvs k with
  | some v => isStr v
  | none => false

/-- Optional property of string type: if the key is present it must be
a string; absence is fine. -/
def optString (kvs : List (String × Json)) (k : String) : Bool :=
  match jLookup kvs k with
  | some v => isStr v
  | none => true

/-- The per-story subschema of `DIGEST_SCHEMA` (summariser.py lines
43-60): an object with required string fields `id, title, url,
published_at, source, summary`, an optional string `category`, and an
optional `tags` array of strings.  Any other key is unconstrained. -/
def checkStory (v : Json) : Bool :=
  match v with
  | .obj kvs =>
    reqString kvs "id" && reqString kvs "title" && reqString kvs "url" &&
    reqString kvs "published_at" && reqString kvs "source" &&
    reqString kvs "summary" && optString kvs "category" &&
    (match jLookup kvs "tags" with
     | some (.arr xs) => xs.all isStr
     | some _ => false
     | none => true)
  | _ => false

/-- `jsonschema.validate(instance, DIGEST_SCHEMA)` as a predicate
(summariser.py lines 35-63): an object with required string fields
`date` and `executive_summary` and a required `stories` array whose
elements satisfy `checkStory`.  Keys outside `properties` are allowed,
as draft-07 `jsonschema` does by default. -/
def checkDigestSchema (v : Json) : Bool :=
  match v with
  | .obj kvs =>
    reqString kvs "date" && reqString kvs "executive_summary" &&
    (match jLookup kvs "stories" with
     | some (.arr xs) => xs.all checkStory
     | some _ => false
     | none => false)
  | _ => false

/- ------------------------------------------------------------------ -/
/- The network world and the extraction chain                          -/
/- ------------------------------------------------------------------ -/

/-- Outcome of one `requests.get`: a 2xx body (after
`raise_for_status`), an HTTP error status (`raise_for_status` raises
`requests.HTTPError`), or any other exception (connection error,
timeout, …). -/
inductive FetchResult where
  | ok (body : String) : FetchResult
  | httpError (status : Nat) : FetchResult
  | failed : FetchResult

/-- An outbound network request, for ordering properties. -/
inductive NetEvent where
  | articleFetch (url : String) : NetEvent
  | llmCall : NetEvent
deriving DecidableEq, Repr

/-- Outcome of the OpenRouter POST, abstracted to what `create_digest`
inspects: the message content string on success, or a non-2xx status
from `response.raise_for_status()`. -/
inductive LlmResult where
  | ok (content : String) : LlmResult
  | httpError (status : Nat) : LlmResult

/-- An exception escaping `_extract_text`: a re-raised
`requests.HTTPError` with its status, or a non-HTTP failure of the
jina.ai fallback fetch. -/
inductive ExtractErr where
  | httpError (status : Nat) : ExtractErr
  | fetchFailed : ExtractErr
deriving DecidableEq, Repr

/-- The ambient world `create_digest` runs in: the process environment,
the behavior of `requests.get` per URL, the readability extraction
(`Document(...).summary()` + `BeautifulSoup.get_text`, an external
library modelled as an arbitrary pure function of the HTML body),
`textwrap.shorten(·, 400, placeholder="…")` (likewise), and the LLM
endpoint's reply per prompt. -/
structure Config where
  env : String → Option String
  fetch : String → FetchResult
  readable : String → String
  shorten : String → String
  llm : String → LlmResult

/-- `_direct_readable(url)` (summariser.py lines 173-179): fetch the
URL, raise on HTTP error status, readability-extract, truncate to
`CHAR_LIMIT` code points.  Also returns the network events emitted. -/
def directReadable (cfg : Config) (climit : Nat) (url : String) :
    Except ExtractErr String × List NetEvent :=
  match cfg.fetch url with
  | .ok body => (.ok (pyTake (cfg.readable body) climit), [.articleFetch url])
  | .httpError s => (.error (.httpError s), [.articleFetch url])
  | .failed => (.error .fetchFailed, [.articleFetch url])

/-- `_jina_readable(url)` (summariser.py lines 181-186): fetch
`JINA_ENDPOINT + url`, raise on HTTP error status, strip, truncate;
empty stripped text yields `""`. -/
def jinaReadable (cfg : Config) (climit : Nat) (url : String) :
    Except ExtractErr String × List NetEvent :=
  match cfg.fetch (JINA_ENDPOINT ++ url) with
  | .ok body =>
    let t := pyStrip body
    (.ok (if t ≠ "" then pyTake t climit else ""),
     [.articleFetch (JINA_ENDPOINT ++ url)])
  | .httpError s =>
    (.error (.httpError s), [.articleFetch (JINA_ENDPOINT ++ url)])
  | .failed => (.error .fetchFailed, [.articleFetch (JINA_ENDPOINT ++ url)])

/-- `_extract_text(url)` (summariser.py lines 160-171).  Mirrors the
`try/except` structure: an `HTTPError` with status 403 triggers the
jina.ai fallback, whose own failures propagate (a `raise` inside an
`except` clause is not caught by the following `except Exception`); an
`HTTPError` with any other status is re-raised by the bare `raise`; any
other exception is swallowed into `""`. -/
def extractText (cfg : Config) (climit : Nat) (url : String) :
    Except ExtractErr String × List NetEvent :=
  match directReadable cfg climit url with
  | (.ok t, ev) => (.ok t, ev)
  | (.error (.httpError s), ev) =>
    if s = 403 then
      let jr := jinaReadable cfg climit url
      (jr.1, ev ++ jr.2)
    else (.error (.httpError s), ev)
  | (.error .fetchFailed, ev) => (.ok "", ev)

/- ------------------------------------------------------------------ -/
/- Enrichment (summariser.py lines 83-89)                              -/
/- ------------------------------------------------------------------ -/

/-- The guard `it.get("description") and len(it["description"].strip())
> 50`: the key is present, truthy (non-empty), and its stripped length
exceeds 50. -/
def descrSubstantial (it : Item) : Bool :=
  match it.description with
  | some d => d ≠ "" && (pyStrip d).data.length > 50
  | none => false

/-- One iteration of the enrichment loop body on one item: either reuse
the RSS description truncated to `CHAR_LIMIT` (no network traffic), or
assign the result of `_extract_text` — whose escaping exceptions abort
the loop. -/
def enrichItem (cfg : Config) (climit : Nat) (it : Item) :
    Except ExtractErr Item × List NetEvent :=
  if descrSubstantial it then
    (.ok { it with content := some (pyTake (it.description.getD "") climit) },
     [])
  else
    match extractText cfg climit it.url with
    | (.ok t, ev) => (.ok { it with content := some t }, ev)
    | (.error e, ev) => (.error e, ev)

/-- Result of running the enrichment loop over the selected records:
the outcome, the network events in order, and the records the loop
mutated in place (selection order, paired with their index in the
caller's original list) — `it["content"] = …` writes into the caller's
dict objects, and stops at the first escaping exception. -/
structure EnrichOut where
  result : Except ExtractErr (List (Nat × Item))
  trace : List NetEvent
  mutated : List (Nat × Item)

/-- The enrichment `for` loop over index-tagged selected items. -/
def enrichLoop (cfg : Config) (climit : Nat) :
    List (Nat × Item) → EnrichOut
  | [] => ⟨.ok [], [], []⟩
  | (i, it) :: rest =>
    match enrichItem cfg climit it with
    | (.ok it2, ev) =>
      let o := enrichLoop cfg climit rest
      ⟨(match o.result with
        | .ok l => .ok ((i, it2) :: l)
        | .error e => .error e),
       ev ++ o.trace, (i, it2) :: o.mutated⟩
    | (.error e, ev) => ⟨.error e, ev, []⟩

/- ------------------------------------------------------------------ -/
/- Selection (summariser.py line 80)                                   -/
/- ------------------------------------------------------------------ -/

/-- Insert into a sorted list, keeping `x` before the first element it
may precede. -/
def insertBy {α : Type} (le : α → α → Bool) (x : α) : List α → List α
  | [] => [x]
  | y :: ys => if le x y then x :: y :: ys else y :: insertBy le x ys

/-- Insertion sort — a stable sort, which is all `sorted` guarantees
beyond the ordering. -/
def isortBy {α : Type} (le : α → α → Bool) : List α → List α
  | [] => []
  | x :: xs => insertBy le x (isortBy le xs)

/-- The comparator of `sorted(items, key=lambda x: x["published_at"],
reverse=True)` on index-tagged items: `a` may precede `b` iff
`a.published_at` is not smaller — descending, with equal keys keeping
their original relative order (Python's sort is stable, and
`reverse=True` does not reorder equal elements). -/
def newerFirst (a b : Nat × Item) : Bool :=
  !pyStrLt a.2.published_at b.2.published_at

/-- `sorted(items, key=…, reverse=True)[:MAX_PER_DIGEST]`, keeping each
selected record's position in the caller's list.  `sorted` builds a new
list of the same dict objects, so mutating a selected record mutates
the caller's record. -/
def selectIdx (m : Nat) (items : List Item) : List (Nat × Item) :=
  (isortBy newerFirst items.enum).take m

/- ------------------------------------------------------------------ -/
/- Prompt construction (summariser.py lines 188-225)                   -/
/- ------------------------------------------------------------------ -/

/-- One `### STORY` block of the prompt.  `it["content"]` is always
present on enriched items; `shorten` is
`textwrap.shorten(·, 400, placeholder="…")`. -/
def storyBlock (shorten : String → String) (it : Item) : String :=
  "### STORY\n" ++
  "Title: " ++ it.title ++ "\n" ++
  "Source: " ++ it.source ++ "\n" ++
  "URL: " ++ it.url ++ "\n" ++
  "ID: " ++ storyId it.url ++ "\n" ++
  "Published: " ++ it.published_at ++ "\n" ++
  "Article:\n" ++ shorten (it.content.getD "") ++ "\n"

/-- `_build_prompt(items, date_str)`. -/
def buildPrompt (shorten : String → String) (items : List Item)
    (dateStr : String) : String :=
  "DATE: " ++ dateStr ++ "\n\n" ++
  "You will produce a COMPLETE JSON object with the following structure.\n" ++
  "IMPORTANT: Ensure all strings are properly closed and the JSON is valid!\n\n" ++
  "\x7b\n" ++
  "  \"date\": \"" ++ dateStr ++ "\",\n" ++
  "  \"executive_summary\": \"2-3 sentences summarizing the key AI developments today\",\n" ++
  "  \"stories\": [\n" ++
  "    \x7b\n" ++
  "      \"id\": \"use the provided ID for each story\",\n" ++
  "      \"title\": \"original title\",\n" ++
  "      \"url\": \"original url\",\n" ++
  "      \"published_at\": \"original published date\",\n" ++
  "      \"source\": \"original source\",\n" ++
  "      \"category\": \"one of: product/research/policy/culture/misc\",\n" ++
  "      \"summary\": \"1-2 sentence summary of the story\",\n" ++
  "      \"tags\": [\"up to 3 relevant tags\"]\n" ++
  "    \x7d\n" ++
  "  ]\n" ++
  "\x7d\n\n" ++
  "Stories:\n\n" ++
  String.intercalate "\n" (items.map (storyBlock shorten))

/- ------------------------------------------------------------------ -/
/- `create_digest` (summariser.py lines 68-155)                        -/
/- ------------------------------------------------------------------ -/

/-- An exception escaping `create_digest`: a propagated extraction
exception, the missing-key `ValueError` (the spec's
ConfigurationError), a non-2xx LLM status (TransportError), a
`json.JSONDecodeError` (MalformedResponse), or a
`jsonschema.ValidationError` (SchemaViolation). -/
inductive PipelineError where
  | extraction (e : ExtractErr) : PipelineError
  | configError : PipelineError
  | transport (status : Nat) : PipelineError
  | malformedResponse : PipelineError
  | schemaViolation : PipelineError
deriving DecidableEq, Repr

/-- Step 5 of `create_digest` (lines 130-149): parse the LLM message
content with `json.loads` — a decode failure is printed and re-raised —
then `jsonschema.validate` it against `DIGEST_SCHEMA` — a violation
propagates — and return the parsed dict unchanged. -/
def validateResponse (content : String) : Except PipelineError Json :=
  match parseJson content with
  | none => .error .malformedResponse
  | some v => if checkDigestSchema v then .ok v else .error .schemaViolation

/-- `create_digest(items, date)`, as a pure function of the world
`cfg`, returning the outcome and the ordered trace of outbound network
requests.  `m` and `climit` are the module constants `MAX_PER_DIGEST`
and `CHAR_LIMIT`. -/
def createDigest (cfg : Config) (m climit : Nat) (items : List Item)
    (dateStr : String) : Except PipelineError Json × List NetEvent :=
  let o := enrichLoop cfg climit (selectIdx m items)
  match o.result with
  | .error e => (.error (.extraction e), o.trace)
  | .ok enriched =>
    let prompt := buildPrompt cfg.shorten (enriched.map Prod.snd) dateStr
    match cfg.env "OPENROUTER_API_KEY" with
    | none => (.error .configError, o.trace)
    | some _ =>
      match cfg.llm prompt with
      | .httpError s => (.error (.transport s), o.trace ++ [.llmCall])
      | .ok content => (validateResponse content, o.trace ++ [.llmCall])

/-- First update recorded for index `i` among the mutated records. -/
def lookupIdx (i : Nat) : List (Nat × Item) → Option Item
  | [] => none
  | (j, it) :: rest => if j = i then some it else lookupIdx i rest

/-- The caller's list after `create_digest` returns or raises: the same
dict objects, with `content` written into exactly the records the
enrichment loop reached. -/
def callerItemsAfter (cfg : Config) (m climit : Nat) (items : List Item) :
    List Item :=
  let o := enrichLoop cfg climit (selectIdx m items)
  items.enum.map (fun p =>
    match lookupIdx p.1 o.mutated with
    | some it2 => it2
    | none => p.2)

/- ------------------------------------------------------------------ -/
/- Helper lemmas                                                       -/
/- ------------------------------------------------------------------ -/

/-- The digest is 32 bytes, whatever the message. -/
theorem sha256Bytes_length (msg : List Nat) :
    (sha256Bytes msg).length = 32 := by
  simp [sha256Bytes, wordBytes]

/-- Every digest byte is below 256. -/
theorem sha256Bytes_lt (msg : List Nat) :
    ∀ b ∈ sha256Bytes msg, b < 256 := by
  intro b hb
  have hw : ∀ w, ∀ x ∈ wordBytes w, x < 256 := by
    intro w x hx
    simp [wordBytes] at hx
    rcases hx with h | h | h | h <;> subst h <;>
      exact Nat.mod_lt _ (by norm_num)
  simp only [sha256Bytes, List.mem_append] at hb
  rcases hb with ((((((h | h) | h) | h) | h) | h) | h) | h <;>
    exact hw _ _ h

/-- Hex encoding doubles the length. -/
theorem flatMap_hexOfByte_length (l : List Nat) :
    (l.flatMap hexOfByte).length = 2 * l.length := by
  induction l with
  | nil => rfl
  | cons b bs ih => simp [hexOfByte, ih]; ring

/-- The hex digest has 64 characters. -/
theorem sha256HexChars_length (msg : List Nat) :
    (sha256HexChars msg).length = 64 := by
  show ((sha256Bytes msg).flatMap hexOfByte).length = 64
  rw [flatMap_hexOfByte_length, sha256Bytes_length]

/-- Every character of the hex digest is a lowercase hex digit. -/
theorem sha256HexChars_hex (msg : List Nat) :
    ∀ c ∈ sha256HexChars msg, c ∈ "0123456789abcdef".data := by
  intro c hc
  simp only [sha256HexChars, List.mem_flatMap] at hc
  obtain ⟨b, hb, hcb⟩ := hc
  have hlt : b < 256 := sha256Bytes_lt msg b hb
  have hdig : ∀ n < 16, Nat.digitChar n ∈ "0123456789abcdef".data := by decide
  simp [hexOfByte] at hcb
  rcases hcb with h | h <;> subst h
  · exact hdig _ (Nat.div_lt_of_lt_mul (by omega))
  · exact hdig _ (Nat.mod_lt _ (by norm_num))

/-- `(String.mk l).length = l.length`. -/
theorem length_mk (l : List Char) : (String.mk l).length = l.length := rfl

/-- `enrichItem` only writes the `content` key: the five collector
fields survive unchanged. -/
theorem enrichItem_preserves_fields (cfg : Config) (climit : Nat)
    (it it2 : Item) (ev : List NetEvent)
    (h : enrichItem cfg climit it = (.ok it2, ev)) :
    it2.title = it.title ∧ it2.url = it.url ∧
    it2.published_at = it.published_at ∧ it2.source = it.source ∧
    it2.description = it.description := by
  unfold enrichItem at h
  by_cases hd : descrSubstantial it = true
  · rw [if_pos hd] at h
    obtain ⟨h1, -⟩ := Prod.mk.injEq .. ▸ h
    cases h
    simp
  · rw [if_neg hd] at h
    rcases hx : extractText cfg climit it.url with ⟨r, evx⟩
    rw [hx] at h
    cases r with
    | ok t => cases h; simp
    | error e => simp at h

/-- An object value missing one of the three required top-level keys of
`DIGEST_SCHEMA`. -/
def missingRequired (v : Json) : Bool :=
  match v with
  | .obj kvs =>
    (jLookup kvs "date").isNone || (jLookup kvs "executive_summary").isNone ||
    (jLookup kvs "stories").isNone
  | _ => false

/-- A value missing a required top-level key fails the schema. -/
theorem missingRequired_fails (v : Json) (h : missingRequired v = true) :
    checkDigestSchema v = false := by
  cases v with
  | obj kvs =>
    simp only [missingRequired, Bool.or_eq_true, Option.isNone_iff_eq_none] at h
    rcases h with (h | h) | h
    · simp [checkDigestSchema, reqString, h]
    · simp [checkDigestSchema, reqString, h]
    · simp [checkDigestSchema, h]
  | null => simp [missingRequired] at h
  | bool b => simp [missingRequired] at h
  | num s => simp [missingRequired] at h
  | str s => simp [missingRequired] at h
  | arr xs => simp [missingRequired] at h

/- ------------------------------------------------------------------ -/
/- The claims                                                          -/
/- ------------------------------------------------------------------ -/

/-- **C5** — The StoryId emitted in the prompt is exactly the first 16
hex characters of the SHA-256 digest of the UTF-8-encoded URL: a pure
function of the URL, so items sharing a URL get the same
16-lowercase-hex-character id, across repeated computations. -/
theorem storyId_first16_sha256 (it1 it2 : Item) (h : it1.url = it2.url) :
    storyId it1.url = pyTake (sha256Hex (utf8Encode it1.url)) 16 ∧
    storyId it1.url = storyId it2.url ∧
    (storyId it1.url).length = 16 ∧
    ∀ c ∈ (storyId it1.url).data, c ∈ "0123456789abcdef".data := by
  refine ⟨rfl, by rw [h], ?_, ?_⟩
  · show (String.mk ((sha256HexChars (utf8Encode it1.url)).take 16)).length = 16
    rw [length_mk, List.length_take, sha256HexChars_length]
    omega
  · intro c hc
    have hc' : c ∈ (sha256HexChars (utf8Encode it1.url)).take 16 := hc
    exact sha256HexChars_hex _ c (List.take_subset 16 _ hc')

/-- Witness for C5 at two concrete records sharing a URL. -/
theorem storyId_first16_sha256_witness :
    ({ title := "a", url := "https://openai.com/news/gpt5",
       published_at := "2025-01-01T12:00:00Z", source := "x" : Item }).url =
      ({ title := "b", url := "https://openai.com/news/gpt5",
         published_at := "2025-01-02T12:00:00Z", source := "y" : Item }).url ∧
    (storyId "https://openai.com/news/gpt5").length = 16 :=
  ⟨rfl,
   (storyId_first16_sha256
      { title := "a", url := "https://openai.com/news/gpt5",
        published_at := "2025-01-01T12:00:00Z", source := "x" }
      { title := "b", url := "https://openai.com/news/gpt5",
        published_at := "2025-01-02T12:00:00Z", source := "y" }
      rfl).2.2.1⟩

/-- **C6** — Round-trip: a response string that parses to a value
satisfying the Digest schema comes back from the response-validation
step as exactly that parsed value, unmodified. -/
theorem validator_roundtrip (s : String) (v : Json)
    (hp : parseJson s = some v) (hs : checkDigestSchema v = true) :
    validateResponse s = .ok v := by
  simp [validateResponse, hp, hs]

/-- A schema-conforming response text. -/
def goodResp : String :=
  "\x7b\"date\": \"2025-01-01\", \"executive_summary\": \"One story.\", " ++
  "\"stories\": [\x7b\"id\": \"0011223344556677\", \"title\": \"T\", " ++
  "\"url\": \"https://e.com/a\", \"published_at\": \"2025-01-01T00:00:00Z\", " ++
  "\"source\": \"S\", \"summary\": \"Sum.\"\x7d]\x7d"

/-- The value `json.loads` yields for `goodResp`. -/
def goodRespVal : Json :=
  Json.obj
    [("date", Json.str "2025-01-01"),
     ("executive_summary", Json.str "One story."),
     ("stories", Json.arr
       [Json.obj
         [("id", Json.str "0011223344556677"),
          ("title", Json.str "T"),
          ("url", Json.str "https://e.com/a"),
          ("published_at", Json.str "2025-01-01T00:00:00Z"),
          ("source", Json.str "S"),
          ("summary", Json.str "Sum.")]])]

set_option maxRecDepth 1000000 in
/-- Witness for C6 on a concrete valid Digest response. -/
theorem validator_roundtrip_witness :
    parseJson goodResp = some goodRespVal ∧
    checkDigestSchema goodRespVal = true ∧
    validateResponse goodResp = .ok goodRespVal :=
  ⟨rfl, rfl, validator_roundtrip goodResp goodRespVal rfl rfl⟩

/-- **C7** — The response validator fails exactly as specified: a
response string that is not valid JSON raises the MalformedResponse
condition (`json.JSONDecodeError`), and a valid-JSON object missing a
required top-level field raises the SchemaViolation condition
(`jsonschema.ValidationError`). -/
theorem validator_failure_modes (s : String) :
    (parseJson s = none → validateResponse s = .error .malformedResponse) ∧
    ∀ v, parseJson s = some v → missingRequired v = true →
      validateResponse s = .error .schemaViolation := by
  constructor
  · intro h
    simp [validateResponse, h]
  · intro v hv hm
    simp [validateResponse, hv, missingRequired_fails v hm]

set_option maxRecDepth 100000 in
/-- Witness for C7: a non-JSON string, and the spec's
`{"date": "2025-01-01"}` example. -/
theorem validator_failure_modes_witness :
    parseJson "the model went rogue" = none ∧
    validateResponse "the model went rogue" = .error .malformedResponse ∧
    parseJson "\x7b\"date\": \"2025-01-01\"\x7d" =
      some (Json.obj [("date", Json.str "2025-01-01")]) ∧
    missingRequired (Json.obj [("date", Json.str "2025-01-01")]) = true ∧
    validateResponse "\x7b\"date\": \"2025-01-01\"\x7d" =
      .error .schemaViolation :=
  ⟨rfl, (validator_failure_modes "the model went rogue").1 rfl, rfl, rfl,
   (validator_failure_modes "\x7b\"date\": \"2025-01-01\"\x7d").2
     (Json.obj [("date", Json.str "2025-01-01")]) rfl rfl⟩

/-- **C10** — The schema only type-checks the optional story fields:
any `category` string (not just the product/research/policy/culture/misc
vocabulary) and `tags` arrays of any number of strings pass
validation, given the required fields. -/
theorem schema_optional_fields_unrestricted (cat : String)
    (tags : List String) :
    checkDigestSchema (Json.obj
      [("date", Json.str "2025-01-01"),
       ("executive_summary", Json.str "s"),
       ("stories", Json.arr [Json.obj
         [("id", Json.str "0011223344556677"),
          ("title", Json.str "t"), ("url", Json.str "u"),
          ("published_at", Json.str "p"), ("source", Json.str "src"),
          ("summary", Json.str "m"),
          ("category", Json.str cat),
          ("tags", Json.arr (tags.map Json.str))]])]) = true := by
  have htags : (tags.map Json.str).all isStr = true := by
    induction tags with
    | nil => rfl
    | cons t ts ih => simp [isStr, ih]
  simp [checkDigestSchema, checkStory, reqString, optString, jLookup, isStr,
    htags]

/- ------------------------------------------------------------------ -/
/- Concrete worlds and inputs for witnesses and counterexamples        -/
/- ------------------------------------------------------------------ -/

/-- A world with no environment variables set, in which every fetch
succeeds with body `"x"` and the LLM replies with an empty string. -/
def cfgNoKey : Config :=
  { env := fun _ => none
    fetch := fun _ => .ok "x"
    readable := fun s => s
    shorten := fun s => s
    llm := fun _ => .ok "" }

/-- A world in which every fetch yields HTTP 404. -/
def cfg404 : Config :=
  { env := fun _ => none
    fetch := fun _ => .httpError 404
    readable := fun s => s
    shorten := fun s => s
    llm := fun _ => .ok "" }

/-- A record with no `description`, so enrichment must extract. -/
def itemNoDescr : Item :=
  { title := "Anthropic Updates Claude", url := "https://example.com/a",
    published_at := "2025-01-02T12:00:00Z", source := "Anthropic News" }

/-- A record whose description is comfortably longer than 50
characters after stripping. -/
def itemDescr : Item :=
  { title := "Test Article", url := "https://example.com/test",
    published_at := "2025-01-01T12:00:00Z", source := "Test Source",
    description := some ("This is a substantial description with more " ++
      "than 50 characters that should be used instead of extracting text.") }

/-- A 13-item input with pairwise-distinct timestamps. -/
def items13 : List Item :=
  ["2025-01-13", "2025-01-12", "2025-01-11", "2025-01-10", "2025-01-09",
   "2025-01-08", "2025-01-07", "2025-01-06", "2025-01-05", "2025-01-04",
   "2025-01-03", "2025-01-02", "2025-01-01"].map (fun d =>
    { title := "t", url := "https://e.com/" ++ d, published_at := d,
      source := "s" })

/- ------------------------------------------------------------------ -/
/- C3 and C8: the environment defaults                                 -/
/- ------------------------------------------------------------------ -/

set_option maxRecDepth 10000 in
/-- **C3** — With `MAX_STORIES` unset the code's `MAX_PER_DIGEST` is 8,
not the 12 the spec and the repository's own `test_constants` assert;
on a 13-item input the pipeline therefore keeps 8 items, not 12. -/
theorem maxPerDigest_default_is_8 :
    MAX_PER_DIGEST (fun _ => none) = some 8 ∧
    MAX_PER_DIGEST (fun _ => none) ≠ some 12 ∧
    (selectIdx 8 items13).length = 8 ∧ (selectIdx 8 items13).length ≠ 12 := by
  refine ⟨rfl, by decide, rfl, by decide⟩

/-- **C8** — With `ARTICLE_CHAR_LIMIT` unset the code's `CHAR_LIMIT` is
5000, not the 7000 the spec and the repository's own `test_constants`
assert.  (The truncation itself is to `CHAR_LIMIT` code points, see
`extractText_failure_modes` and `directReadable`.) -/
theorem charLimit_default_is_5000 :
    CHAR_LIMIT (fun _ => none) = some 5000 ∧
    CHAR_LIMIT (fun _ => none) ≠ some 7000 :=
  ⟨rfl, by decide⟩

/- ------------------------------------------------------------------ -/
/- C4: the enrichment short-circuit                                    -/
/- ------------------------------------------------------------------ -/

/-- **C4** — An item whose description is present and longer than 50
characters after stripping gets `content := description[:CHAR_LIMIT]`
with no extractor invocation (no network events, and a result
independent of the ambient world); every other item gets `content :=
_extract_text(url)`, along with that call's network events. -/
theorem enricher_shortcircuit (cfg cfg2 : Config) (climit : Nat)
    (it : Item) :
    (descrSubstantial it = true →
      enrichItem cfg climit it =
        (.ok { it with
               content := some (pyTake (it.description.getD "") climit) },
         []) ∧
      enrichItem cfg climit it = enrichItem cfg2 climit it) ∧
    (descrSubstantial it = false →
      enrichItem cfg climit it =
        ((extractText cfg climit it.url).1.map
           (fun t => { it with content := some t }),
         (extractText cfg climit it.url).2)) := by
  constructor
  · intro h
    constructor <;> simp [enrichItem, h]
  · intro h
    simp only [enrichItem, h, Bool.false_eq_true, if_false]
    rcases hx : extractText cfg climit it.url with ⟨r, ev⟩
    cases r <;> simp [Except.map]

set_option maxRecDepth 10000 in
/-- Witness for C4: a concrete long-description item is enriched from
its description, with an empty network trace, in two different worlds. -/
theorem enricher_shortcircuit_witness :
    descrSubstantial itemDescr = true ∧
    enrichItem cfgNoKey 5000 itemDescr =
      (.ok { itemDescr with
             content := some (pyTake (itemDescr.description.getD "") 5000) },
       []) :=
  ⟨by decide, ((enricher_shortcircuit cfgNoKey cfg404 5000 itemDescr).1
      (by decide)).1⟩

/- ------------------------------------------------------------------ -/
/- C1: what `_extract_text` can and cannot raise                       -/
/- ------------------------------------------------------------------ -/

/-- Counterexample to C1 as stated: when the direct fetch yields HTTP
404, `_extract_text` re-raises the `HTTPError` instead of returning a
string — the bare `raise` on line 168 is not caught by the following
`except Exception` clause. -/
theorem extractText_raises_on_404 :
    (extractText cfg404 5000 "https://example.com/a").1 =
      .error (.httpError 404) ∧
    ∀ s, (extractText cfg404 5000 "https://example.com/a").1 ≠ .ok s := by
  refine ⟨rfl, fun s h => ?_⟩
  rw [show (extractText cfg404 5000 "https://example.com/a").1 =
        .error (.httpError 404) from rfl] at h
  exact Except.noConfusion h

/-- **C1 (amended)** — `_extract_text` returns a string on a successful
direct fetch and on any non-HTTP direct-fetch failure (empty string in
the latter case); but a direct-fetch `HTTPError` with status other than
403 propagates, and a 403 hands the outcome — failures included — to
the jina.ai fallback. -/
theorem extractText_failure_modes (cfg : Config) (climit : Nat)
    (url : String) :
    (∀ body, cfg.fetch url = .ok body →
      (extractText cfg climit url).1 =
        .ok (pyTake (cfg.readable body) climit)) ∧
    (cfg.fetch url = .failed → (extractText cfg climit url).1 = .ok "") ∧
    (∀ s, cfg.fetch url = .httpError s → s ≠ 403 →
      (extractText cfg climit url).1 = .error (.httpError s)) ∧
    (cfg.fetch url = .httpError 403 →
      (extractText cfg climit url).1 = (jinaReadable cfg climit url).1) := by
  refine ⟨?_, ?_, ?_, ?_⟩
  · intro body h
    simp [extractText, directReadable, h]
  · intro h
    simp [extractText, directReadable, h]
  · intro s h hs
    simp [extractText, directReadable, h, hs]
  · intro h
    simp [extractText, directReadable, h]

/-- Witness for C1 (amended), exercising the propagating branch at a
concrete 404 world. -/
theorem extractText_failure_modes_witness :
    cfg404.fetch "https://example.com/a" = .httpError 404 ∧
    (extractText cfg404 5000 "https://example.com/a").1 =
      .error (.httpError 404) :=
  ⟨rfl, (extractText_failure_modes cfg404 5000 "https://example.com/a").2.2.1
    404 rfl (by decide)⟩

/- ------------------------------------------------------------------ -/
/- C2: ordering of the key check and the network calls                 -/
/- ------------------------------------------------------------------ -/

/-- Every event `_direct_readable` emits is an article fetch. -/
theorem directReadable_trace (cfg : Config) (climit : Nat) (url : String) :
    ∀ ev ∈ (directReadable cfg climit url).2, ∃ u, ev = .articleFetch u := by
  intro ev hev
  unfold directReadable at hev
  cases h : cfg.fetch url <;> rw [h] at hev <;> simp at hev <;>
    exact ⟨url, hev⟩

/-- Every event `_jina_readable` emits is an article fetch. -/
theorem jinaReadable_trace (cfg : Config) (climit : Nat) (url : String) :
    ∀ ev ∈ (jinaReadable cfg climit url).2, ∃ u, ev = .articleFetch u := by
  intro ev hev
  unfold jinaReadable at hev
  cases h : cfg.fetch (JINA_ENDPOINT ++ url) <;> rw [h] at hev <;>
    simp at hev <;> exact ⟨JINA_ENDPOINT ++ url, hev⟩

/-- Every event `_extract_text` emits is an article fetch — it never
talks to the LLM endpoint. -/
theorem extractText_trace (cfg : Config) (climit : Nat) (url : String) :
    ∀ ev ∈ (extractText cfg climit url).2, ∃ u, ev = .articleFetch u := by
  intro ev hev
  unfold extractText at hev
  rcases hd : directReadable cfg climit url with ⟨r, evd⟩
  have hdt : ∀ e ∈ evd, ∃ u, e = NetEvent.articleFetch u := by
    intro e he
    have h := directReadable_trace cfg climit url
    rw [hd] at h
    exact h e he
  rw [hd] at hev
  cases r with
  | ok t => exact hdt ev hev
  | error e =>
    cases e with
    | httpError s =>
      by_cases h403 : s = 403
      · subst h403
        have hev' : ev ∈ evd ++ (jinaReadable cfg climit url).2 := hev
        rcases List.mem_append.mp hev' with h | h
        · exact hdt ev h
        · exact jinaReadable_trace cfg climit url ev h
      · have hev' : ev ∈
            (if s = 403 then
               ((jinaReadable cfg climit url).1,
                evd ++ (jinaReadable cfg climit url).2)
             else (Except.error (ExtractErr.httpError s), evd)).2 := hev
        rw [if_neg h403] at hev'
        exact hdt ev hev'
    | fetchFailed => exact hdt ev hev

/-- Every event the enrichment loop emits is an article fetch. -/
theorem enrichLoop_trace_articleFetch (cfg : Config) (climit : Nat)
    (l : List (Nat × Item)) :
    ∀ ev ∈ (enrichLoop cfg climit l).trace, ∃ u, ev = .articleFetch u := by
  induction l with
  | nil =>
    intro ev hev
    simp [enrichLoop] at hev
  | cons q rest ih =>
    intro ev hev
    rcases q with ⟨i, it⟩
    unfold enrichLoop at hev
    rcases he : enrichItem cfg climit it with ⟨r, evi⟩
    have hei : ∀ e ∈ evi, ∃ u, e = NetEvent.articleFetch u := by
      intro e hee
      unfold enrichItem at he
      by_cases hd : descrSubstantial it = true
      · rw [if_pos hd] at he
        cases he
        simp at hee
      · rw [if_neg hd] at he
        rcases hx : extractText cfg climit it.url with ⟨rx, evx⟩
        rw [hx] at he
        have hev' : evi = evx := by
          cases rx <;> cases he <;> rfl
        subst hev'
        have h := extractText_trace cfg climit it.url
        rw [hx] at h
        exact h e hee
    rw [he] at hev
    cases r with
    | ok it2 =>
      simp only [List.mem_append] at hev
      rcases hev with h | h
      · exact hei ev h
      · exact ih ev h
    | error e => exact hei ev hev

/-- Counterexample to C2 as stated: with the API key absent and one
description-less input record, `create_digest` does raise the
configuration `ValueError`, but an article-fetch HTTP request is
observed before it — enrichment runs before the key check on line 95. -/
theorem network_before_configError_counterexample :
    (createDigest cfgNoKey 8 5000 [itemNoDescr] "2025-01-01").1 =
      .error .configError ∧
    (createDigest cfgNoKey 8 5000 [itemNoDescr] "2025-01-01").2 =
      [.articleFetch "https://example.com/a"] := by
  exact ⟨rfl, rfl⟩

/-- **C2 (amended)** — If `OPENROUTER_API_KEY` is absent, then for
every input list `create_digest` fails (with the configuration
`ValueError`, unless an extraction error aborts it first) and never
calls the LLM endpoint; article fetches, however, may happen before the
error is raised. -/
theorem no_llm_call_without_key (cfg : Config) (m climit : Nat)
    (items : List Item) (dateStr : String)
    (hk : cfg.env "OPENROUTER_API_KEY" = none) :
    NetEvent.llmCall ∉ (createDigest cfg m climit items dateStr).2 ∧
    ∃ e, (createDigest cfg m climit items dateStr).1 = .error e := by
  have htr := enrichLoop_trace_articleFetch cfg climit (selectIdx m items)
  unfold createDigest
  rcases hr : (enrichLoop cfg climit (selectIdx m items)).result with e | l
  · refine ⟨fun hmem => ?_, ⟨.extraction e, by simp [hr]⟩⟩
    simp only [hr] at hmem
    obtain ⟨u, hu⟩ := htr _ hmem
    exact NetEvent.noConfusion hu
  · refine ⟨fun hmem => ?_, ⟨.configError, by simp [hr, hk]⟩⟩
    simp only [hr, hk] at hmem
    obtain ⟨u, hu⟩ := htr _ hmem
    exact NetEvent.noConfusion hu

/-- Witness for C2 (amended) at a concrete key-less world. -/
theorem no_llm_call_without_key_witness :
    cfgNoKey.env "OPENROUTER_API_KEY" = none ∧
    NetEvent.llmCall ∉
      (createDigest cfgNoKey 8 5000 [itemNoDescr] "2025-01-01").2 :=
  ⟨rfl, (no_llm_call_without_key cfgNoKey 8 5000 [itemNoDescr] "2025-01-01"
    rfl).1⟩

/- ------------------------------------------------------------------ -/
/- C9: what happens to the caller's records                            -/
/- ------------------------------------------------------------------ -/

/-- The five NewsItem fields a collector supplies. -/
def itemFields (it : Item) :
    String × String × String × String × Option String :=
  (it.title, it.url, it.published_at, it.source, it.description)

/-- A successful index lookup points at a member of the list. -/
theorem lookupIdx_mem (i : Nat) (l : List (Nat × Item)) (u : Item)
    (h : lookupIdx i l = some u) : (i, u) ∈ l := by
  induction l with
  | nil => simp [lookupIdx] at h
  | cons q rest ih =>
    rcases q with ⟨j, it⟩
    unfold lookupIdx at h
    by_cases hj : j = i
    · rw [if_pos hj] at h
      cases h
      subst hj
      exact List.mem_cons_self _ _
    · rw [if_neg hj] at h
      exact List.mem_cons_of_mem _ (ih h)

/-- Every record the enrichment loop mutates keeps the five collector
fields of the input record at the same index. -/
theorem enrichLoop_mutated_fields (cfg : Config) (climit : Nat)
    (l : List (Nat × Item)) :
    ∀ p ∈ (enrichLoop cfg climit l).mutated,
      ∃ it0, (p.1, it0) ∈ l ∧ itemFields p.2 = itemFields it0 := by
  induction l with
  | nil =>
    intro p hp
    simp [enrichLoop] at hp
  | cons q rest ih =>
    intro p hp
    rcases q with ⟨i, it⟩
    unfold enrichLoop at hp
    rcases he : enrichItem cfg climit it with ⟨r, evi⟩
    rw [he] at hp
    cases r with
    | ok it2 =>
      rcases List.mem_cons.mp hp with hp | hp
      · subst hp
        obtain ⟨h1, h2, h3, h4, h5⟩ :=
          enrichItem_preserves_fields cfg climit it it2 evi he
        exact ⟨it, List.mem_cons_self _ _, by simp [itemFields, h1, h2, h3, h4, h5]⟩
      · obtain ⟨it0, hmem, hf⟩ := ih p hp
        exact ⟨it0, List.mem_cons_of_mem _ hmem, hf⟩
    | error e => simp at hp

/-- Membership through stable insertion. -/
theorem mem_insertBy {α : Type} (le : α → α → Bool) (x : α) (l : List α)
    (y : α) (h : y ∈ insertBy le x l) : y = x ∨ y ∈ l := by
  induction l with
  | nil =>
    simp [insertBy] at h
    exact Or.inl h
  | cons z zs ih =>
    unfold insertBy at h
    by_cases hle : le x z = true
    · rw [if_pos hle] at h
      rcases List.mem_cons.mp h with h | h
      · exact Or.inl h
      · exact Or.inr h
    · rw [if_neg hle] at h
      rcases List.mem_cons.mp h with h | h
      · exact Or.inr (h ▸ List.mem_cons_self _ _)
      · rcases ih h with h | h
        · exact Or.inl h
        · exact Or.inr (List.mem_cons_of_mem _ h)

/-- The sort does not invent elements. -/
theorem mem_isortBy {α : Type} (le : α → α → Bool) (l : List α) (y : α)
    (h : y ∈ isortBy le l) : y ∈ l := by
  induction l with
  | nil => simp [isortBy] at h
  | cons x xs ih =>
    unfold isortBy at h
    rcases mem_insertBy le x _ y h with h | h
    · exact h ▸ List.mem_cons_self _ _
    · exact List.mem_cons_of_mem _ (ih h)

set_option maxRecDepth 10000 in
/-- Counterexample to C9 as stated: after a run on a single
description-less record, the caller's record has gained a `content`
key — `it["content"] = …` mutates the caller's dict objects in place. -/
theorem caller_record_gains_content_key :
    callerItemsAfter cfgNoKey 8 5000 [itemNoDescr] ≠ [itemNoDescr] ∧
    (callerItemsAfter cfgNoKey 8 5000 [itemNoDescr]).map
      (fun it => it.content) = [some "x"] ∧
    itemNoDescr.content = none := by
  refine ⟨by decide, rfl, rfl⟩

/-- **C9 (amended)** — The pipeline never changes the five collector
fields of any caller record (and keeps the list length); it does,
however, write the `content` key in place into the selected records it
enriches. -/
theorem caller_records_fields_preserved (cfg : Config) (m climit : Nat)
    (items : List Item) (i : Nat) :
    (callerItemsAfter cfg m climit items).length = items.length ∧
    ((callerItemsAfter cfg m climit items)[i]?).map itemFields =
      (items[i]?).map itemFields := by
  constructor
  · simp [callerItemsAfter]
  · unfold callerItemsAfter
    rw [List.getElem?_map, List.getElem?_enum]
    rcases hg : items[i]? with _ | it
    · simp
    · simp only [Option.map_some']
      rcases hl : lookupIdx i
          (enrichLoop cfg climit (selectIdx m items)).mutated with _ | u
      · simp [hl]
      · simp only [hl]
        obtain ⟨it0, hmem0, hf⟩ :=
          enrichLoop_mutated_fields cfg climit (selectIdx m items) (i, u)
            (lookupIdx_mem i _ u hl)
        have henum : (i, it0) ∈ items.enum :=
          mem_isortBy _ _ _ (List.take_subset m _ hmem0)
        have hget : items[i]? = some it0 :=
          List.mem_enum_iff_getElem?.mp henum
        rw [hg] at hget
        cases hget
        exact congrArg some hf

end Digest
